import Mathlib

/-!
# Verification of the isisdl download-orchestration core

Shallow embedding of the core data model and operations of the isisdl
repository (`src/isisdl/backend/request_helper.py`, `src/isisdl/backend/utils.py`)
and proofs about them.

Conventions used throughout:

* Python byte strings are `List Nat`; file paths are the list of their
  components (`pathlib.Path` compares and hashes by its parts, so component
  lists model `Path` equality and ordering faithfully for the sanitized,
  slash-free names produced by `sanitize_name`).
* Machine integers are `Int`/`Nat` (none of the arithmetic here can overflow
  Python ints, which are unbounded).
* Hash digests are modelled as the exact byte stream fed to the hash object:
  SHA-256 streaming makes the digest a function of the concatenation of all
  `update` calls, and the development never needs collisions.
* Tunable constants that live in the (absent) `isisdl/settings.py` module
  (`checksum_num_bytes`, `checksum_base_skip`, `num_tries_download`,
  `perc_diff_for_checksum`) and the external collaborators that the spec
  declares out of scope (`sanitize_name`, `urlparse`, the hash function,
  the media-type directory names) are carried in a `Settings` record, so all
  theorems hold for every instantiation of them.
* Randomness (`MediaContainerSize.__str__` drawing 16 random letters for
  size-less containers) is modelled by an oracle `draws : Nat → String`
  consumed left to right, one index per `__str__` call.
* Python `assert` statements abort the computation; functions containing
  them return `Option` and yield `none` when an assertion fails.
-/

namespace Isisdl

/-- Media kinds of `MediaType` (from `isisdl.utils`, hydrated via the spec §3):
the three data kinds plus the two terminal synthetic kinds.
(`extern` is renamed `externalLink` here.) -/
inductive MediaType where
  | document
  | externalLink
  | video
  | corrupted
  | hardlink
deriving DecidableEq

/-- The three variants of `MediaContainerSize` (request_helper.py:166-169). -/
inductive SizeVariant where
  | inBytes
  | inSeconds
  | noSize
deriving DecidableEq

/-- `MediaContainerSize`, modelled per-object as its enum tag plus the `val`
payload (`int | None`).  (The Python enum stores `val` on the member
singleton, a flaw the source itself flags with a TODO; the per-object model
is the behaviour every call site is written against.) -/
structure MCSize where
  variant : SizeVariant
  val : Option Int
deriving DecidableEq

/-- Python `str(x)` for `x : int | None`. -/
def optStr : Option Int → String
  | none => "None"
  | some v => toString v

/-- `MediaContainerSize.__str__` (request_helper.py:189-194): a fresh random
16-letter string for `no_size` (one oracle draw), otherwise `str(self.val)`.
Returns the string and the advanced draw counter. -/
def sizeStr (draws : Nat → String) (k : Nat) (s : MCSize) : String × Nat :=
  match s.variant with
  | SizeVariant.noSize => (draws k, k + 1)
  | _ => (optStr s.val, k)

/-- `MediaContainer` (request_helper.py:236-268) with its owning `Course`
flattened to the two fields the embedded operations read
(`course.course_id`, `course.name`). -/
structure MediaContainer where
  name : String
  url : String
  downloadUrl : String
  time : Option Int
  courseId : Nat
  courseName : String
  mediaType : MediaType
  size : MCSize
  checksum : Option (List Nat)
  currentSize : Option Int
  stop : Bool
  done : Bool
  newlyDownloaded : Bool
  newlyDiscovered : Bool
deriving DecidableEq

/-- `PreMediaContainer` (request_helper.py:197-233), again with the course
flattened. -/
structure PreContainer where
  url : String
  name : Option String
  time : Option Int
  courseId : Nat
  courseName : String
  mediaType : MediaType
  size : MCSize
deriving DecidableEq

/-- The fields of `urlparse` results that `from_pre_container` reads.
`urlparse` is Python stdlib, treated as an external collaborator and
abstracted to a parameter of type `String → UrlParts`. -/
structure UrlParts where
  path : String
  hostname : Option String

/-- Tunable constants from the absent `isisdl/settings.py` module and the
external collaborator functions; every theorem holds for all values. -/
structure Settings where
  /-- `checksum_num_bytes`: size of one sampled window. -/
  checksumNumBytes : Nat
  /-- `checksum_base_skip`: base of the geometric skip. -/
  checksumBaseSkip : Nat
  /-- `num_tries_download`: retry budget for one chunk read. -/
  numTriesDownload : Nat
  /-- `sanitize_name(·, is_dir=True)` from `isisdl.utils` (external). -/
  sanitizeCourse : String → String
  /-- `sanitize_name(·, is_dir=False)` from `isisdl.utils` (external). -/
  sanitizeFile : String → String
  /-- `checksum_algorithm(·.encode()).hexdigest()` (external SHA-256). -/
  hashHex : String → String
  /-- `MediaType.dir_name` (from `isisdl.utils`). -/
  mediaTypeDir : MediaType → String
  /-- `is_testing`. -/
  isTesting : Bool
  /-- The `perc_diff_for_checksum` tolerance test
  `size.val * (1 - perc) <= st_size <= size.val * (1 + perc)`
  at request_helper.py:536, abstracted over the tolerance constant. -/
  percOk : Option Int → Nat → Bool

/-- `MediaContainer.path` (request_helper.py:393-395 together with
`Course.path`, request_helper.py:703-705): the three path components below
the working directory. -/
def pathOf (st : Settings) (c : MediaContainer) : List String :=
  [st.sanitizeCourse c.courseName, st.mediaTypeDir c.mediaType, st.sanitizeFile c.name]

/-!  ## Checksum Engine (utils.py:278-295) -/

/-- Python `str(n).encode()` for a `Nat`. -/
def strBytes (s : String) : List Nat :=
  s.toList.map Char.toNat

/-- The loop of `calculate_local_checksum` (utils.py:282-293), structurally
recursive on a fuel bound: read a window of `numBytes` at `curr`, advance
`curr` by `numBytes`, stop on an empty read, otherwise feed the window and
skip a further `base ^ i` bytes.  Every read with data advances `curr`, so
the loop performs at most `file.length - curr` reads with data before one
comes back empty; any fuel above that bound yields the loop's total
behaviour (`locWindowsF_fuel_irrelevant`). -/
def locWindowsF (file : List Nat) (numBytes base : Nat) :
    Nat → Nat → Nat → List (List Nat)
  | 0, _curr, _i => []
  | fuel + 1, curr, i =>
    if (file.drop curr).take numBytes = [] then []
    else
      (file.drop curr).take numBytes ::
        locWindowsF file numBytes base fuel ((curr + numBytes) + base ^ i) (i + 1)

/-- `calculate_local_checksum` (utils.py:278-295), as the byte stream fed to
the hash object: the decimal string of the total byte length, then the
sampled windows. -/
def calculate_local_checksum (numBytes base : Nat) (file : List Nat) : List Nat :=
  strBytes (toString file.length) ++
    (locWindowsF file numBytes base (file.length + 1) 0 1).flatten

/-- Modelled from the spec (§4.4 wording), for comparison with
`calculate_local_checksum`: windows are read at offsets where the offset
after the i-th read (the position reached by reading `data`) increases by
`base ^ i` bytes, stopping exactly when a read returns no data. -/
def specWindowsF (file : List Nat) (numBytes base : Nat) :
    Nat → Nat → Nat → List (List Nat)
  | 0, _off, _i => []
  | fuel + 1, off, i =>
    if (file.drop off).take numBytes = [] then []
    else
      (file.drop off).take numBytes ::
        specWindowsF file numBytes base fuel
          ((off + ((file.drop off).take numBytes).length) + base ^ i) (i + 1)

/-- The spec-side fingerprint: length string, then geometrically spaced
windows. -/
def spec_checksum (numBytes base : Nat) (file : List Nat) : List Nat :=
  strBytes (toString file.length) ++
    (specWindowsF file numBytes base (file.length + 1) 0 1).flatten

/-!  ## Adaptive concurrency search (request_helper.py:1285-1349) -/

/-- `num_threads_downloading` after the initial fill loop
(request_helper.py:1285-1289): `i = 0`, then `for i in range(max // 2)`,
then `num_threads_downloading = i + 1`. -/
def initThreads (maxThreads : Nat) : Nat :=
  if maxThreads / 2 = 0 then 1 else maxThreads / 2

/-- One decision of the adaptive search loop (request_helper.py:1338-1347):
`eval_spawn_next_thread` returns `True` (grow), `False` (shrink) or `None`
(hold); the counter is incremented only when strictly below the maximum and
decremented only when strictly above 1. -/
def spawnStep (maxThreads : Nat) (num : Nat) (spawn : Option Bool) : Nat :=
  match spawn with
  | some true => if num < maxThreads then num + 1 else num
  | some false => if 1 < num then num - 1 else num
  | none => num

/-- The worker-count trajectory of `_download_files`: the counter after
folding a sequence of spawn decisions over the initial value. -/
def adaptiveCount (maxThreads : Nat) (decisions : List (Option Bool)) : Nat :=
  decisions.foldl (spawnStep maxThreads) (initThreads maxThreads)

/-!  ## Cache answers and the download scheduler (request_helper.py:333-547) -/

/-- The result of `database_helper.know_url(url, course_id)` as consumed by
`MediaContainer.from_dump` (request_helper.py:271-295): `True` (unknown URL,
should be downloaded — also covers a cached record whose course id is not in
this run's course mapping), `False` (known-bad URL), or the hydrated cached
container. -/
inductive CacheAnswer where
  | yes
  | no
  | record (m : MediaContainer)
deriving DecidableEq

/-- The behaviour of one `download.raw.read(token.num_bytes)` chunk:
the number of exceptions raised before the read succeeds, and the bytes it
then returns (`[]` means end of stream). -/
structure ChunkRead where
  failures : Nat
  data : List Nat
deriving DecidableEq

/-- The transport collaborator's answer to
`session.get_(download_url, stream=True)`. -/
structure NetResponse where
  ok : Bool
  chunks : List ChunkRead
deriving DecidableEq

/-- External world as seen by one `download` call: the cache lookup function
and the transport response (`none` models `session.get_` returning `None`
after its retries). -/
structure Env where
  know : String → Nat → CacheAnswer
  response : Option NetResponse

/-- State threaded through one `download` call: the container, its target
file on disk (`none` = file does not exist), the cache's known-bad URL set,
the containers dumped to the database, and whether a network request was
issued. -/
structure DState where
  c : MediaContainer
  file : Option (List Nat)
  badUrls : List String
  dumped : List MediaContainer
  requested : Bool
deriving DecidableEq

/-- `MediaContainer.should_download` (request_helper.py:333-358).
Note the final line returns `calculate_local_checksum(self.path) ==
maybe_container.checksum` — download exactly when the on-disk checksum
*matches* the cached one. -/
def shouldDownload (st : Settings) (env : Env) (c : MediaContainer)
    (file : Option (List Nat)) : Bool :=
  if c.done || c.mediaType == MediaType.corrupted || c.mediaType == MediaType.hardlink then
    false
  else
    let actualSize : Nat :=
      match file with
      | none => 0
      | some bytes => bytes.length
    match env.know c.url c.courseId with
    | CacheAnswer.yes => true
    | CacheAnswer.no => false
    | CacheAnswer.record m =>
      if actualSize = 0 then true
      else if c.size.variant == SizeVariant.inBytes && c.size.val == some (actualSize : Int) then
        false
      else
        match m.checksum with
        | none => true
        | some ck =>
          calculate_local_checksum st.checksumNumBytes st.checksumBaseSkip
            (file.getD []) == ck

/-- The hard-coded URL excluded from the `should_download` skip
(request_helper.py:472). -/
def plagiarismUrl : String :=
  "https://www.eecs.tu-berlin.de/fileadmin/f4/fkIVdokumente/studium/Plagiate/Merkblatt_Plagiate_Fak.IV_05-2020.pdf"

/-- The per-chunk copy loop of `download` (request_helper.py:500-520): for
each chunk, retry the raw read up to `num_tries_download` times (exhaustion
breaks the loop), stop on an empty read, otherwise append the bytes to the
file and add their count to `current_size`.  The loop never consults
`_stop`. -/
def chunkLoop (numTries : Nat) : List ChunkRead → MediaContainer → List Nat →
    MediaContainer × List Nat
  | [], c, acc => (c, acc)
  | ch :: rest, c, acc =>
    if numTries ≤ ch.failures then (c, acc)
    else if ch.data = [] then (c, acc)
    else
      chunkLoop numTries rest
        { c with currentSize := some (c.currentSize.getD 0 + (ch.data.length : Int)) }
        (acc ++ ch.data)

/-- The failed-response branch of `download` (request_helper.py:482-497):
`size.val = 0`, `current_size = None`, `media_type = corrupted`,
`_done = True`, then — because `media_type` was just reassigned — the
`media_type != video` test is always true and the URL is always added to
the known-bad set; finally the container is dumped. -/
def badResponse (s : DState) (c : MediaContainer) : DState :=
  let c1 : MediaContainer :=
    { c with size := { c.size with val := some 0 }, currentSize := none,
             mediaType := MediaType.corrupted, done := true }
  let bad := if c1.mediaType ≠ MediaType.video then s.badUrls ++ [c1.url] else s.badUrls
  { s with c := c1, badUrls := bad, dumped := s.dumped ++ [c1] }

/-- `MediaContainer.download` (request_helper.py:455-547), for
`is_stream=False`.  Returns `none` when a (testing-only) `assert` fails,
otherwise the updated state and the bool return value of the Python method.
The throttler's token bookkeeping is external and does not affect any field
modelled here; the chunk sizes it grants are folded into `Env`'s chunk
list. -/
def download (st : Settings) (env : Env) (s : DState) : Option (DState × Bool) :=
  let c := s.c
  if c.stop || c.mediaType == MediaType.corrupted then
    some ({ s with c := { c with done := true } }, false)
  else if c.currentSize.isSome then
    if st.isTesting && !c.done then none
    else some (s, false)
  else
    let c1 : MediaContainer := { c with currentSize := some 0 }
    if ¬ shouldDownload st env c1 s.file ∧ c1.url ≠ plagiarismUrl then
      some ({ s with c := { c1 with currentSize := c1.size.val, done := true } }, false)
    else
      let s1 : DState := { s with requested := true }
      match env.response with
      | none => some (badResponse s1 c1, false)
      | some r =>
        if !r.ok then some (badResponse s1 c1, false)
        else
          let lr := chunkLoop st.numTriesDownload r.chunks c1 []
          let c2 := lr.1
          let written := lr.2
          let fileBytes := if c2.mediaType == MediaType.corrupted then [] else written
          if st.isTesting && !(c2.mediaType == MediaType.corrupted) &&
              !(c2.size.variant == SizeVariant.inBytes && c2.size.val.isSome &&
                st.percOk c2.size.val fileBytes.length) then
            none
          else
            let c3 : MediaContainer :=
              { c2 with size := { c2.size with val := some (fileBytes.length : Int) },
                        checksum := some (calculate_local_checksum st.checksumNumBytes
                          st.checksumBaseSkip fileBytes),
                        newlyDownloaded := true, done := true }
            let s2 : DState :=
              { s1 with c := c3, file := some fileBytes, dumped := s1.dumped ++ [c3] }
            some (s2, true)

/-!  ## Resolution (request_helper.py:297-331) -/

/-- `str.rstrip("/")`. -/
def rstripSlash (s : String) : String :=
  String.mk ((s.toList.reverse.dropWhile (fun ch => ch = '/')).reverse)

/-- `os.path.basename` for the separator-free strings used here: everything
after the last `/`. -/
def basename (s : String) : String :=
  String.mk ((s.toList.reverse.takeWhile (fun ch => ch ≠ '/')).reverse)

/-- Result of `MediaContainer.from_pre_container`: `dropped` models the
Python `None` return. -/
inductive ResolveResult where
  | dropped
  | resolved (c : MediaContainer)
deriving DecidableEq

/-- `MediaContainer.from_pre_container` (request_helper.py:297-331).
`dl` is the value returned by the `get_download_url_from_url` indirection
collaborator (`None` when no alternate URL is supplied; `urlparse(None)`
yields empty path and hostname, which the `ParseResultBytes` branches at
lines 322-323 decode).  `parse` abstracts `urlparse` on strings,
`testingBadUrls` the `testing_bad_urls` setting. -/
def from_pre_container (st : Settings) (parse : String → UrlParts)
    (env : Env) (dl : Option String) (testingBadUrls : List String)
    (pre : PreContainer) : ResolveResult :=
  if st.isTesting && pre.url ∈ testingBadUrls then ResolveResult.dropped
  else
    match env.know pre.url pre.courseId with
    | CacheAnswer.record m => ResolveResult.resolved m
    | CacheAnswer.no => ResolveResult.dropped
    | CacheAnswer.yes =>
      let mk : String → ResolveResult := fun nm =>
        ResolveResult.resolved
          { name := nm, url := pre.url, downloadUrl := dl.getD pre.url,
            time := pre.time, courseId := pre.courseId, courseName := pre.courseName,
            mediaType := pre.mediaType, size := pre.size, checksum := none,
            currentSize := none, stop := false, done := false,
            newlyDownloaded := false, newlyDiscovered := true }
      let fallback : ResolveResult :=
        let parsedPath := rstripSlash ((dl.map (fun u => (parse u).path)).getD "")
        let parsedHostname : Option String := (dl.map (fun u => (parse u).hostname)).getD none
        if parsedPath ≠ "" then mk (basename parsedPath)
        else
          match parsedHostname with
          | some h =>
            if h ≠ "" then mk (basename h)
            else mk ((st.hashHex (dl.getD pre.url)).take 10)
          | none => mk ((st.hashHex (dl.getD pre.url)).take 10)
      match pre.name with
      | some n => if n ≠ "" then mk n else fallback
      | none => fallback

/-!  ## Conflict Resolver (request_helper.py:958-1035) -/

/-- Stable insertion with respect to a total boolean `le`: an element
inserted later (i.e. occurring earlier in the input) lands before any
element it compares `le` to, matching Python's stable `list.sort`. -/
def insertLe {α : Type} (le : α → α → Bool) (a : α) : List α → List α
  | [] => [a]
  | b :: bs => if le a b then a :: b :: bs else b :: insertLe le a bs

/-- Stable insertion sort (Python `list.sort(key=...)`). -/
def isortBy {α : Type} (le : α → α → Bool) : List α → List α
  | [] => []
  | a :: as' => insertLe le a (isortBy le as')

/-- Python string `<`: code-point lexicographic order, i.e. the order of
the underlying character lists. -/
def strLt (a b : String) : Bool :=
  decide (a.data < b.data)

/-- Lexicographic comparison of path component lists — exactly how
`pathlib.Path` orders paths (tuple comparison of parts, each by string
code-point order). -/
def pathsLe : List String → List String → Bool
  | [], _ => true
  | _ :: _, [] => false
  | a :: as', b :: bs => if strLt a b then true else if strLt b a then false else pathsLe as' bs

/-- Sort key of pass 1 (`conflict.sort(key=lambda x: x.path)`,
request_helper.py:978). -/
def leByPath (st : Settings) (a b : MediaContainer) : Bool :=
  pathsLe (pathOf st a) (pathOf st b)

/-- Sort key of passes 2 and 3
(`conflict.sort(key=lambda it: str(it.download_url))`,
request_helper.py:1001 and 1023). -/
def leByUrl (a b : MediaContainer) : Bool :=
  !strLt b.downloadUrl a.downloadUrl

/-- Append a member to its key's bucket, creating the bucket at the end on a
new key — the insertion-ordered grouping behaviour of
`defaultdict(list)` iterated with `.values()`. -/
def groupPut {κ : Type} [DecidableEq κ] :
    List (κ × List MediaContainer) → κ → MediaContainer →
    List (κ × List MediaContainer)
  | [], k, f => [(k, [f])]
  | (k', fs) :: rest, k, f =>
    if k' = k then (k', fs ++ [f]) :: rest else (k', fs) :: groupPut rest k f

/-- The bucket lists of a keyed sequence, in key first-occurrence order. -/
def groupLists {κ : Type} [DecidableEq κ] (keyed : List (κ × MediaContainer)) :
    List (List MediaContainer) :=
  (keyed.foldl (fun g kf => groupPut g kf.1 kf.2) []).map Prod.snd

/-- `MediaContainer.set_hardlink` (request_helper.py:375-383), as called
`item.set_hardlink(base_container)`: copy checksum, size, time and the
discovery flags from the base and become a hardlink. -/
def setHardlink (base item : MediaContainer) : MediaContainer :=
  { item with checksum := base.checksum, mediaType := MediaType.hardlink,
              size := base.size, time := base.time,
              newlyDownloaded := base.newlyDownloaded,
              newlyDiscovered := base.newlyDiscovered }

/-- One pass of the first two dedup passes (request_helper.py:973-985 and
996-1008): singleton buckets pass through; larger buckets are sorted, the
first element is kept as base, and every other member whose path differs
from the base's is hardlinked to it (recorded as a `(base, link)` pair, the
argument order of `database_helper.set_hardlink(other, self)`). -/
def processGroups (st : Settings) (le : MediaContainer → MediaContainer → Bool) :
    List (List MediaContainer) →
    List MediaContainer × List (MediaContainer × MediaContainer)
  | [] => ([], [])
  | g :: rest =>
    let r := processGroups st le rest
    match g with
    | [f] => (f :: r.1, r.2)
    | conflict =>
      match isortBy le conflict with
      | [] => r
      | base :: tail =>
        let pairs := (tail.filter (fun it => ¬ pathOf st it = pathOf st base)).map
          (fun it => (base, setHardlink base it))
        (base :: r.1, pairs ++ r.2)

/-- The pass-2 grouping keys `f"{course_id} {name} {size}"`
(request_helper.py:994), computed in input order while threading the draw
counter (one `__str__` call per file). -/
def passTwoKeys (draws : Nat → String) : List MediaContainer → Nat →
    List (String × MediaContainer) × Nat
  | [], k => ([], k)
  | f :: fs, k =>
    let sk := sizeStr draws k f.size
    let key := toString f.courseId ++ " " ++ f.name ++ " " ++ sk.1
    let rest := passTwoKeys draws fs sk.2
    ((key, f) :: rest.1, rest.2)

/-- The pass-3 assertion
`assert not any(str(item.size) == str(base_container.size) for item in
conflict[1:])` (request_helper.py:1026): evaluated left to right with
short-circuiting, each comparison calling `__str__` on the item's size and
then on the base's size (two fresh draws for size-less containers). -/
def assertDistinctSizes (draws : Nat → String) (base : MediaContainer) :
    List MediaContainer → Nat → Bool × Nat
  | [], k => (true, k)
  | it :: more, k =>
    let s1 := sizeStr draws k it.size
    let s2 := sizeStr draws s1.2 base.size
    if s1.1 = s2.1 then (false, s2.2) else assertDistinctSizes draws base more s2.2

/-- `os.path.splitext` for the separator-free names used here: split before
the last dot, provided some earlier character of the name is not a dot. -/
def splitExt (s : String) : String × String :=
  let cs := s.toList
  let extLen := cs.reverse.takeWhile (fun ch => ch ≠ '.') |>.length
  let dotIdx := cs.length - extLen - 1
  if extLen < cs.length ∧ (cs.take dotIdx).any (fun ch => ch ≠ '.') then
    (String.mk (cs.take dotIdx), String.mk (cs.drop dotIdx))
  else (s, "")

/-- The pass-3 renaming (request_helper.py:1027-1030): the i-th member of a
sorted colliding bucket gets a zero-based ordinal inserted before its
extension. -/
def renameGroup (sorted : List MediaContainer) : List MediaContainer :=
  sorted.enum.map (fun p =>
    let se := splitExt p.2.name
    { p.2 with name := se.1 ++ "." ++ toString p.1 ++ se.2 })

/-- Pass 3 (request_helper.py:1014-1030): singleton buckets pass through;
larger buckets are sorted by download URL, the distinct-sizes assertion is
checked (failure aborts the whole function), and all members are renamed
with ordinals. -/
def passThree (draws : Nat → String) :
    List (List MediaContainer) → Nat → Option (List MediaContainer)
  | [], _k => some []
  | g :: rest, k =>
    match g with
    | [f] => (passThree draws rest k).map (fun l => f :: l)
    | conflict =>
      match isortBy leByUrl conflict with
      | [] => passThree draws rest k
      | base :: tail =>
        let a := assertDistinctSizes draws base tail k
        if a.1 then (passThree draws rest a.2).map (fun l => renameGroup (base :: tail) ++ l)
        else none

/-- Pass 1 (request_helper.py:967-985): group the non-corrupted files by
download URL and collapse each bucket to its path-sorted base. -/
def conflictPass1 (st : Settings) (original : List MediaContainer) :
    List MediaContainer × List (MediaContainer × MediaContainer) :=
  processGroups st (leByPath st)
    (groupLists ((original.filter (fun it => it.mediaType != MediaType.corrupted)).map
      (fun f => (f.downloadUrl, f))))

/-- Pass 2 (request_helper.py:990-1008): group by
`f"{course_id} {name} {size}"` and collapse each bucket to its
URL-sorted base; also returns the advanced draw counter. -/
def conflictPass2 (st : Settings) (draws : Nat → String)
    (files : List MediaContainer) :
    (List MediaContainer × List (MediaContainer × MediaContainer)) × Nat :=
  let k2 := passTwoKeys draws files 0
  (processGroups st leByUrl (groupLists k2.1), k2.2)

/-- Pass 3 (request_helper.py:1012-1030): group by target path and rename
colliding buckets. -/
def conflictPass3 (st : Settings) (draws : Nat → String)
    (files : List MediaContainer) (k : Nat) : Option (List MediaContainer) :=
  passThree draws (groupLists (files.map (fun f => (pathOf st f, f)))) k

/-- `check_for_conflicts_in_files` (request_helper.py:958-1035).  Corrupted
containers are split off first and re-join the output untouched; the three
passes then run on the remainder.  Returns the final file list and the
recorded hardlink `(base, link)` pairs, or `none` when one of the
function's `assert` statements fails (the pass-3 size assertion, or the
final unique-paths / unique-download-URLs assertions at lines
1032-1033). -/
def check_for_conflicts_in_files (st : Settings) (draws : Nat → String)
    (original : List MediaContainer) :
    Option (List MediaContainer × List (MediaContainer × MediaContainer)) :=
  let finalCorrupted := original.filter (fun it => it.mediaType == MediaType.corrupted)
  let p1 := conflictPass1 st original
  let p2k := conflictPass2 st draws p1.1
  match conflictPass3 st draws p2k.1.1 p2k.2 with
  | none => none
  | some renamed =>
    let finalFiles := finalCorrupted ++ renamed
    if ((finalFiles.map (pathOf st)).dedup.length = finalFiles.length) ∧
        ((finalFiles.map (fun f => f.downloadUrl)).dedup.length = finalFiles.length) then
      some (finalFiles, p1.2 ++ p2k.1.2)
    else none

/-!  ## Concrete instances used to evaluate the definitions -/

/-- A concrete `Settings` instantiation for evaluating the model: identity
sanitizer, window size 4, skip base 2, 3 retries, production mode. -/
def st0 : Settings where
  checksumNumBytes := 4
  checksumBaseSkip := 2
  numTriesDownload := 3
  sanitizeCourse := fun s => s
  sanitizeFile := fun s => s
  hashHex := fun _ => "0123456789abcdef"
  mediaTypeDir := fun mt =>
    match mt with
    | MediaType.document => "Documents"
    | MediaType.externalLink => "Extern"
    | MediaType.video => "Videos"
    | MediaType.corrupted => "Corrupted"
    | MediaType.hardlink => "Hardlinks"
  isTesting := false
  percOk := fun _ _ => true

/-- A constant draw oracle (every random 16-letter string comes out
identical — the collision case). -/
def drawsConst : Nat → String := fun _ => "aaaaaaaaaaaaaaaa"

/-- An injective draw oracle (all random strings distinct — the intended
case). -/
def drawsIdx : Nat → String := fun n => "r" ++ toString n

/-- A plain resolved document container. -/
def mcDoc : MediaContainer where
  name := "a.pdf"
  url := "https://isis/a"
  downloadUrl := "https://isis/a"
  time := some 10
  courseId := 1
  courseName := "crs"
  mediaType := MediaType.document
  size := { variant := SizeVariant.inBytes, val := some 100 }
  checksum := none
  currentSize := none
  stop := false
  done := false
  newlyDownloaded := false
  newlyDiscovered := false

/-- A resolved video container (size declared in seconds). -/
def mcVideo : MediaContainer :=
  { mcDoc with name := "v.mp4", url := "https://video/v", downloadUrl := "https://video/v",
               mediaType := MediaType.video,
               size := { variant := SizeVariant.inSeconds, val := some 60 } }

/-- A hardlink container whose URL is the hard-coded exception URL. -/
def mcHardMagic : MediaContainer :=
  { mcDoc with name := "m.pdf", url := plagiarismUrl, downloadUrl := plagiarismUrl,
               mediaType := MediaType.hardlink }

/-- A container whose cooperative-stop flag is set mid-transfer
(`current_size` already initialised by the running download). -/
def mcStopped : MediaContainer :=
  { mcDoc with stop := true, currentSize := some 0 }

/-- Two size-less containers sharing course, name and path but not download
URL (the C6 counterexample input). -/
def mcNoSize1 : MediaContainer :=
  { mcDoc with name := "n.pdf", url := "https://u/1", downloadUrl := "https://u/1",
               size := { variant := SizeVariant.noSize, val := none } }

/-- Second size-less container, same target path as `mcNoSize1`. -/
def mcNoSize2 : MediaContainer :=
  { mcNoSize1 with url := "https://u/2", downloadUrl := "https://u/2" }

/-- Environment: unknown URL, transport returns `None`. -/
def envFail : Env where
  know := fun _ _ => CacheAnswer.yes
  response := none

/-- Environment: unknown URL, successful response whose first chunk yields
5 bytes and whose second chunk read fails `num_tries_download` times. -/
def envAbandon : Env where
  know := fun _ _ => CacheAnswer.yes
  response := some { ok := true, chunks := [⟨0, [1, 2, 3, 4, 5]⟩, ⟨3, [6, 6]⟩] }

/-- Environment: unknown URL, successful immediately-empty response. -/
def envOkEmpty : Env where
  know := fun _ _ => CacheAnswer.yes
  response := some { ok := true, chunks := [⟨0, []⟩] }

/-- The cached record for the C4 scenario: same resource, checksum equal to
the checksum of the on-disk bytes `[1, 2, 3]` under `st0`'s parameters. -/
def mcCached : MediaContainer :=
  { mcVideo with size := { variant := SizeVariant.inSeconds, val := some 3 },
                 checksum := some (calculate_local_checksum 4 2 [1, 2, 3]) }

/-- Environment for the C4 scenario: the cache knows the record, the
transport would serve one byte. -/
def envCached : Env where
  know := fun _ _ => CacheAnswer.record mcCached
  response := some { ok := true, chunks := [⟨0, [9]⟩, ⟨0, []⟩] }

/-- Download state around `mcVideo` with nothing on disk. -/
def dsVideo : DState where
  c := mcVideo
  file := none
  badUrls := []
  dumped := []
  requested := false

/-- Download state around `mcDoc` with nothing on disk. -/
def dsDoc : DState :=
  { dsVideo with c := mcDoc }

/-- Download state for the C4 scenario: the hydrated cached container with
its matching file `[1, 2, 3]` on disk. -/
def dsCached : DState :=
  { dsVideo with c := mcCached, file := some [1, 2, 3] }

/-- Download state around the hardlink container with the exception URL. -/
def dsHardMagic : DState :=
  { dsVideo with c := mcHardMagic }

/-- Download state around the stopped container. -/
def dsStopped : DState :=
  { dsVideo with c := mcStopped }

/-- A hardlink container with an ordinary URL. -/
def mcHard : MediaContainer :=
  { mcDoc with name := "h.pdf", url := "https://isis/h", downloadUrl := "https://isis/h",
               mediaType := MediaType.hardlink }

/-- Download state around the ordinary hardlink container. -/
def dsHard : DState :=
  { dsVideo with c := mcHard }

/-- A concrete `urlparse` model for the witness instantiations. -/
def parse0 : String → UrlParts := fun u =>
  if u = "https://host/a/b.pdf" then { path := "/a/b.pdf", hostname := some "host" }
  else if u = "https://host2" then { path := "", hostname := some "host2" }
  else { path := "", hostname := none }

/-- A candidate resource with a declared name. -/
def preNamed : PreContainer where
  url := "https://isis/p"
  name := some "declared.pdf"
  time := some 5
  courseId := 1
  courseName := "crs"
  mediaType := MediaType.document
  size := { variant := SizeVariant.inBytes, val := some 7 }

/-- A candidate resource without a declared name. -/
def preAnon : PreContainer :=
  { preNamed with name := none }

/-!  ## General lemmas -/

/-- A list whose dedup has the same length is duplicate-free — the content
of the Python idiom `len({x for x in l}) == len(l)`. -/
theorem nodup_of_dedup_length {α : Type} [DecidableEq α] (l : List α)
    (h : l.dedup.length = l.length) : l.Nodup := by
  have hs : l.dedup.Sublist l := l.dedup_sublist
  have he : l.dedup = l := hs.eq_of_length h
  rw [← he]
  exact l.nodup_dedup

/-- Past the end of the file every window read is empty, whatever the
fuel. -/
theorem locWindowsF_of_le (file : List Nat) (nB b : Nat) :
    ∀ fuel off i, file.length ≤ off → locWindowsF file nB b fuel off i = [] := by
  intro fuel off i h
  cases fuel with
  | zero => rfl
  | succ fuel => simp [locWindowsF, List.drop_eq_nil_of_le h]

/-- Past the end of the file every spec-side window read is empty, whatever
the fuel. -/
theorem specWindowsF_of_le (file : List Nat) (nB b : Nat) :
    ∀ fuel off i, file.length ≤ off → specWindowsF file nB b fuel off i = [] := by
  intro fuel off i h
  cases fuel with
  | zero => rfl
  | succ fuel => simp [specWindowsF, List.drop_eq_nil_of_le h]

/-- Any fuel strictly above the number of remaining bytes produces the same
window list: the embedding's fuel captures the loop's total behaviour. -/
theorem locWindowsF_fuel_irrelevant (file : List Nat) (nB b : Nat) :
    ∀ fuel₁ fuel₂ curr i, file.length - curr < fuel₁ → file.length - curr < fuel₂ →
      locWindowsF file nB b fuel₁ curr i = locWindowsF file nB b fuel₂ curr i := by
  intro fuel₁
  induction fuel₁ with
  | zero => intro fuel₂ curr i h1 _; omega
  | succ fuel₁ ih =>
    intro fuel₂ curr i h1 h2
    cases fuel₂ with
    | zero => omega
    | succ fuel₂ =>
      simp only [locWindowsF]
      by_cases hd : (file.drop curr).take nB = []
      · simp [hd]
      · have hdrop : file.drop curr ≠ [] := by
          intro hc
          simp [hc] at hd
        have hcur : curr < file.length := by
          by_contra hc
          exact hdrop (List.drop_eq_nil_of_le (Nat.le_of_not_lt hc))
        have hnb : 0 < nB := by
          rcases Nat.eq_zero_or_pos nB with h0 | h0
          · exact absurd (by simp [h0]) hd
          · exact h0
        simp only [if_neg hd]
        congr 1
        exact ih fuel₂ ((curr + nB) + b ^ i) (i + 1) (by omega) (by omega)

/-- The source loop and the spec-side offset recursion produce the same
window sequence from any starting offset with the same fuel. -/
theorem locWindowsF_eq_specWindowsF (file : List Nat) (nB b : Nat) :
    ∀ fuel curr i,
      locWindowsF file nB b fuel curr i = specWindowsF file nB b fuel curr i := by
  intro fuel
  induction fuel with
  | zero => intro curr i; rfl
  | succ fuel ih =>
    intro curr i
    simp only [locWindowsF, specWindowsF]
    by_cases hd : (file.drop curr).take nB = []
    · simp [hd]
    · simp only [if_neg hd]
      have hdrop : file.drop curr ≠ [] := by
        intro hc
        simp [hc] at hd
      have hcur : curr < file.length := by
        by_contra hc
        exact hdrop (List.drop_eq_nil_of_le (Nat.le_of_not_lt hc))
      have hlen : ((file.drop curr).take nB).length = min nB (file.length - curr) := by
        simp [List.length_take]
      congr 1
      by_cases hfull : (file.length - curr) ≤ nB
      · -- last (possibly partial) window: both next offsets are past EOF
        have h1 : file.length ≤ (curr + nB) + b ^ i := by omega
        have h2 : file.length ≤ (curr + ((file.drop curr).take nB).length) + b ^ i := by
          omega
        rw [locWindowsF_of_le _ _ _ _ _ _ h1, specWindowsF_of_le _ _ _ _ _ _ h2]
      · -- full window: identical next offsets, inductive step
        have hfl : ((file.drop curr).take nB).length = nB := by omega
        rw [hfl]
        exact ih _ _

/-- C7: for every local file, `calculate_local_checksum` feeds the hash the
decimal string of the file's total byte length followed by fixed-size
windows, the first read at offset 0, the offset reached after the i-th read
increasing by `base ^ i` bytes before the next read, and stops exactly when
a read returns no data — the stream equals the spec-side fingerprint. -/
theorem local_checksum_follows_spec (numBytes base : Nat) (file : List Nat) :
    calculate_local_checksum numBytes base file = spec_checksum numBytes base file := by
  unfold calculate_local_checksum spec_checksum
  rw [locWindowsF_eq_specWindowsF]

/-- One spawn decision keeps the worker count inside `[1, max]`. -/
theorem spawnStep_bounds (maxThreads : Nat) (num : Nat) (spawn : Option Bool)
    (h1 : 1 ≤ num) (h2 : num ≤ maxThreads) :
    1 ≤ spawnStep maxThreads num spawn ∧ spawnStep maxThreads num spawn ≤ maxThreads := by
  rcases spawn with _ | b
  · simpa [spawnStep] using ⟨h1, h2⟩
  · cases b <;> simp only [spawnStep] <;> split <;> omega

/-- Folding spawn decisions preserves the `[1, max]` interval. -/
theorem foldl_spawnStep_bounds (maxThreads : Nat) :
    ∀ (decisions : List (Option Bool)) (num : Nat), 1 ≤ num → num ≤ maxThreads →
      1 ≤ decisions.foldl (spawnStep maxThreads) num ∧
        decisions.foldl (spawnStep maxThreads) num ≤ maxThreads := by
  intro decisions
  induction decisions with
  | nil => intro num h1 h2; exact ⟨h1, h2⟩
  | cons d ds ih =>
    intro num h1 h2
    have hb := spawnStep_bounds maxThreads num d h1 h2
    simpa [List.foldl] using ih (spawnStep maxThreads num d) hb.1 hb.2

/-- C9: in every state reachable by the adaptive concurrency search loop the
worker count stays in `[1, configured maximum]`; it is incremented only when
strictly below the maximum and decremented only when strictly above 1. -/
theorem adaptive_worker_count_bounds (maxThreads : Nat) (h : 1 ≤ maxThreads) :
    (∀ decisions : List (Option Bool),
        1 ≤ adaptiveCount maxThreads decisions ∧
          adaptiveCount maxThreads decisions ≤ maxThreads) ∧
    (∀ num spawn, num < spawnStep maxThreads num spawn → num < maxThreads) ∧
    (∀ num spawn, spawnStep maxThreads num spawn < num → 1 < num) := by
  refine ⟨fun decisions => ?_, fun num spawn => ?_, fun num spawn => ?_⟩
  · have hinit : 1 ≤ initThreads maxThreads ∧ initThreads maxThreads ≤ maxThreads := by
      unfold initThreads
      split
      · omega
      · exact ⟨by omega, Nat.div_le_self _ _⟩
    exact foldl_spawnStep_bounds maxThreads decisions _ hinit.1 hinit.2
  · rcases spawn with _ | b
    · simp [spawnStep]
    · cases b <;> simp only [spawnStep] <;> split <;> omega
  · rcases spawn with _ | b
    · simp [spawnStep]
    · cases b <;> simp only [spawnStep] <;> split <;> omega

/-- Witness for C9 at `max = 6` and a concrete decision sequence. -/
theorem adaptive_worker_count_bounds_witness :
    1 ≤ adaptiveCount 6 [some true, some false, none, some true] ∧
      adaptiveCount 6 [some true, some false, none, some true] ≤ 6 :=
  (adaptive_worker_count_bounds 6 (by decide)).1 [some true, some false, none, some true]

/-- C1: whatever `check_for_conflicts_in_files` returns has pairwise
distinct target paths and pairwise distinct download URLs (the function
asserts exactly this before returning and aborts otherwise). -/
theorem conflict_resolver_unique_outputs (st : Settings) (draws : Nat → String)
    (original out : List MediaContainer)
    (pairs : List (MediaContainer × MediaContainer))
    (h : check_for_conflicts_in_files st draws original = some (out, pairs)) :
    (out.map (pathOf st)).Nodup ∧ (out.map (fun f => f.downloadUrl)).Nodup := by
  simp only [check_for_conflicts_in_files] at h
  split at h
  · exact absurd h (by simp)
  · split at h
    · rename_i renamed hmatch hcond
      rcases h with ⟨⟩
      exact ⟨nodup_of_dedup_length _ (by simpa using hcond.1),
             nodup_of_dedup_length _ (by simpa using hcond.2)⟩
    · exact absurd h (by simp)

/-- Witness for C1: a singleton input passes through and satisfies both
uniqueness properties. -/
theorem conflict_resolver_unique_outputs_witness :
    check_for_conflicts_in_files st0 drawsConst [mcDoc] = some ([mcDoc], []) ∧
      (([mcDoc].map (pathOf st0)).Nodup ∧
        ([mcDoc].map (fun f => f.downloadUrl)).Nodup) :=
  ⟨by decide,
   conflict_resolver_unique_outputs st0 drawsConst [mcDoc] [mcDoc] [] (by decide)⟩

/-- C2 (failing input): a video container whose transport response is
absent is demoted to corrupted, and — because `media_type` is reassigned to
`corrupted` *before* the `media_type != video` test at
request_helper.py:491 — its URL *is* recorded in the known-bad set, in
spite of the comment above that test saying video URLs should not be. -/
theorem video_failure_records_bad_url :
    dsVideo.c.mediaType = MediaType.video ∧
      (download st0 envFail dsVideo).map
          (fun p => (p.1.c.mediaType, p.1.badUrls, p.1.c.done, p.2)) =
        some (MediaType.corrupted, ["https://video/v"], true, false) := by
  decide

/-- C3 (failing input): a transfer whose second chunk read exhausts all
`num_tries_download` retries is abandoned, yet the container does *not*
transition to `corrupted` — the truncation guard at request_helper.py:522
can never be true on this path — and the partially written 5-byte prefix is
kept on disk, checksummed, and the container is marked newly downloaded and
complete with return value `True`. -/
theorem abandoned_transfer_marked_downloaded :
    (download st0 envAbandon dsDoc).map
        (fun p => (p.1.c.mediaType, p.1.file, p.2)) =
      some (MediaType.document, some [1, 2, 3, 4, 5], true) ∧
    (download st0 envAbandon dsDoc).map
        (fun p => (p.1.c.newlyDownloaded, p.1.c.done, p.1.c.size.val)) =
      some (true, true, some 5) := by
  decide

/-- C4 (failing input): a container hydrated from the cache whose on-disk
file matches the cached record — equal checksum, size recorded under the
`in_seconds` variant as the source leaves it for videos — has
`should_download = True` (request_helper.py:358 returns checksum
*equality*), and `download` then performs a network transfer and marks it
newly downloaded. -/
theorem matching_cached_file_redownloaded :
    shouldDownload st0 envCached mcCached (some [1, 2, 3]) = true ∧
      (download st0 envCached dsCached).map
          (fun p => (p.1.requested, p.1.c.newlyDownloaded, p.2)) =
        some (true, true, true) := by
  decide

/-- C5 (counterexample): the per-chunk copy loop never observes the
cooperative-stop flag — on a container whose stop flag is set mid-transfer
(`current_size = 0`), one more chunk is read and the transferred-byte
counter increases from 0 to 1. -/
theorem stop_flag_ignored_by_chunk_loop :
    mcStopped.stop = true ∧ mcStopped.currentSize = some 0 ∧
      (chunkLoop 3 [⟨0, [7]⟩] mcStopped []).1.currentSize = some 1 ∧
      (chunkLoop 3 [⟨0, [7]⟩] mcStopped []).2 = [7] := by
  decide

/-- C5 (amended): the stop flag is observed when `download` is entered (at
dequeue time): if it is already set, the call returns immediately, the
transferred-byte counter is untouched and the Resource reports complete. -/
theorem stop_before_download_reports_complete (st : Settings) (env : Env)
    (s : DState) (h : s.c.stop = true) :
    download st env s = some ({ s with c := { s.c with done := true } }, false) := by
  unfold download
  simp [h]

/-- Witness for the amended C5. -/
theorem stop_before_download_reports_complete_witness :
    dsStopped.c.stop = true ∧
      download st0 envFail dsStopped =
        some ({ dsStopped with c := { dsStopped.c with done := true } }, false) :=
  ⟨by decide, stop_before_download_reports_complete st0 envFail dsStopped (by decide)⟩

/-- C8 (counterexample): a Resource of kind `hardlink` whose URL is the
hard-coded `Merkblatt_Plagiate` exception URL (request_helper.py:472) is
*not* skipped: `download` issues a network request and downloads it. -/
theorem hardlink_exception_url_downloads :
    dsHardMagic.c.mediaType = MediaType.hardlink ∧
      (download st0 envOkEmpty dsHardMagic).map (fun p => (p.1.requested, p.2)) =
        some (true, true) := by
  decide

/-- `should_download` is false for a completed, corrupted or hardlink
container — its very first test (request_helper.py:336). -/
theorem shouldDownload_false_of_terminal (st : Settings) (env : Env)
    (c : MediaContainer) (file : Option (List Nat))
    (h : c.done = true ∨ c.mediaType = MediaType.corrupted ∨
      c.mediaType = MediaType.hardlink) :
    shouldDownload st env c file = false := by
  unfold shouldDownload
  rcases h with h | h | h <;> simp [h]

/-- No branch of `download` ever clears the completion flag. -/
theorem download_done_monotone (st : Settings) (env : Env) (s s' : DState)
    (b : Bool) (h : download st env s = some (s', b)) (hd : s.c.done = true) :
    s'.c.done = true := by
  simp only [download] at h
  repeat' split at h
  all_goals
    first
      | exact Option.noConfusion h
      | (simp only [Option.some.injEq, Prod.mk.injEq] at h
         obtain ⟨h1, h2⟩ := h
         subst h1
         first | rfl | exact hd)

/-- C8 (amended): a Resource already complete, of kind corrupted or
hardlink, or with the stop flag set, whose URL is not the hard-coded
exception URL, is skipped by `download` with no network access; and the
completion flag, once set, is never cleared by any `download` call. -/
theorem terminal_resources_skip_network (st : Settings) (env : Env) (s : DState)
    (htest : st.isTesting = false) (hurl : s.c.url ≠ plagiarismUrl)
    (hcase : s.c.done = true ∨ s.c.mediaType = MediaType.corrupted ∨
      s.c.mediaType = MediaType.hardlink ∨ s.c.stop = true) :
    (∃ s', download st env s = some (s', false) ∧ s'.requested = s.requested ∧
      (s.c.done = true → s'.c.done = true)) ∧
    (∀ (env' : Env) (s₀ s₁ : DState) (b : Bool), download st env' s₀ = some (s₁, b) →
      s₀.c.done = true → s₁.c.done = true) := by
  refine ⟨?_, fun env' s₀ s₁ b h hd => download_done_monotone st env' s₀ s₁ b h hd⟩
  by_cases hfirst : (s.c.stop || (s.c.mediaType == MediaType.corrupted)) = true
  · refine ⟨{ s with c := { s.c with done := true } }, ?_, rfl, fun _ => rfl⟩
    simp only [download, hfirst]
    rfl
  · have hstop : ¬ s.c.stop = true := by
      intro hc
      simp [hc] at hfirst
    have hcorr : ¬ s.c.mediaType = MediaType.corrupted := by
      intro hc
      simp [hc] at hfirst
    have hterm : s.c.done = true ∨ s.c.mediaType = MediaType.corrupted ∨
        s.c.mediaType = MediaType.hardlink := by
      rcases hcase with h | h | h | h
      · exact Or.inl h
      · exact Or.inr (Or.inl h)
      · exact Or.inr (Or.inr h)
      · exact absurd h hstop
    by_cases hcur : s.c.currentSize.isSome = true
    · refine ⟨s, ?_, rfl, fun h => h⟩
      simp only [download, hfirst, hcur, htest]
      rfl
    · have hsd : shouldDownload st env { s.c with currentSize := some 0 } s.file = false :=
        shouldDownload_false_of_terminal st env _ s.file (by
          rcases hterm with h | h | h
          · exact Or.inl h
          · exact Or.inr (Or.inl h)
          · exact Or.inr (Or.inr h))
      refine ⟨{ s with c := { s.c with currentSize := s.c.size.val, done := true } },
        ?_, rfl, fun _ => rfl⟩
      simp only [download, hfirst, hcur, hsd]
      simp [hurl]

/-- Witness for the amended C8: an ordinary hardlink container is skipped
without touching the network. -/
theorem terminal_resources_skip_network_witness :
    (∃ s', download st0 envOkEmpty dsHard = some (s', false) ∧
      s'.requested = dsHard.requested ∧
      (dsHard.c.done = true → s'.c.done = true)) ∧
    (∀ (env' : Env) (s₀ s₁ : DState) (b : Bool),
      download st0 env' s₀ = some (s₁, b) → s₀.c.done = true → s₁.c.done = true) :=
  terminal_resources_skip_network st0 envOkEmpty dsHard (by decide) (by decide)
    (Or.inr (Or.inr (Or.inl (by decide))))

/-- A slash-free string is its own basename. -/
theorem basename_of_no_slash (s : String) (h : ∀ ch ∈ s.toList, ch ≠ '/') :
    basename s = s := by
  unfold basename
  have ht : s.toList.reverse.takeWhile (fun ch => decide (ch ≠ '/')) = s.toList.reverse := by
    rw [List.takeWhile_eq_self_iff]
    intro x hx
    simpa using h x (List.mem_reverse.mp hx)
  rw [ht, List.reverse_reverse]
  rfl

/-- C10: when resolving a candidate with no cache record, the display name
follows the fallback chain: the declared name if present (and nonempty);
else the trailing path segment of the download URL; else the hostname; else
the first 10 characters of the checksum of the download URL. -/
theorem resolution_name_fallback (st : Settings) (parse : String → UrlParts)
    (env : Env) (u : String) (bad : List String) (pre : PreContainer)
    (htest : st.isTesting = false)
    (hknow : env.know pre.url pre.courseId = CacheAnswer.yes) :
    (∀ n, pre.name = some n → n ≠ "" →
      ∃ c, from_pre_container st parse env (some u) bad pre =
        ResolveResult.resolved c ∧ c.name = n) ∧
    (pre.name = none → rstripSlash (parse u).path ≠ "" →
      ∃ c, from_pre_container st parse env (some u) bad pre =
        ResolveResult.resolved c ∧ c.name = basename (rstripSlash (parse u).path)) ∧
    (∀ h, pre.name = none → rstripSlash (parse u).path = "" →
      (parse u).hostname = some h → h ≠ "" → (∀ ch ∈ h.toList, ch ≠ '/') →
      ∃ c, from_pre_container st parse env (some u) bad pre =
        ResolveResult.resolved c ∧ c.name = h) ∧
    (pre.name = none → rstripSlash (parse u).path = "" →
      ((parse u).hostname = none ∨ (parse u).hostname = some "") →
      ∃ c, from_pre_container st parse env (some u) bad pre =
        ResolveResult.resolved c ∧ c.name = (st.hashHex u).take 10) := by
  refine ⟨?_, ?_, ?_, ?_⟩
  · intro n hn hne
    simp only [from_pre_container, htest, hknow, hn]
    simp [hne]
  · intro hn hpath
    simp only [from_pre_container, htest, hknow, hn]
    simp [hpath]
  · intro h hn hpath hhost hne hns
    simp only [from_pre_container, htest, hknow, hn]
    simp [hpath, hhost, hne, basename_of_no_slash h hns]
  · intro hn hpath hhost
    simp only [from_pre_container, htest, hknow, hn]
    rcases hhost with hh | hh <;> simp [hpath, hh]

/-- Witness for C10: all four fallback cases at concrete inputs. -/
theorem resolution_name_fallback_witness :
    (∃ c, from_pre_container st0 parse0 envFail (some "https://host/a/b.pdf") [] preNamed =
      ResolveResult.resolved c ∧ c.name = "declared.pdf") ∧
    (∃ c, from_pre_container st0 parse0 envFail (some "https://host/a/b.pdf") [] preAnon =
      ResolveResult.resolved c ∧
        c.name = basename (rstripSlash (parse0 "https://host/a/b.pdf").path)) ∧
    (∃ c, from_pre_container st0 parse0 envFail (some "https://host2") [] preAnon =
      ResolveResult.resolved c ∧ c.name = "host2") ∧
    (∃ c, from_pre_container st0 parse0 envFail (some "https://other") [] preAnon =
      ResolveResult.resolved c ∧ c.name = (st0.hashHex "https://other").take 10) :=
  ⟨(resolution_name_fallback st0 parse0 envFail "https://host/a/b.pdf" [] preNamed
      rfl rfl).1 "declared.pdf" rfl (by decide),
   (resolution_name_fallback st0 parse0 envFail "https://host/a/b.pdf" [] preAnon
      rfl rfl).2.1 rfl (by decide),
   (resolution_name_fallback st0 parse0 envFail "https://host2" [] preAnon
      rfl rfl).2.2.1 "host2" rfl (by decide) (by decide) (by decide) (by decide),
   (resolution_name_fallback st0 parse0 envFail "https://other" [] preAnon
      rfl rfl).2.2.2 rfl (by decide) (Or.inl (by decide))⟩

/-- C6 (counterexample): conflict resolution is *not* a function of the
input set alone — two runs on the same two size-less resources (same
course, same name, same target path, different download URLs) give
different outputs depending on the random strings
`MediaContainerSize.__str__` draws for the pass-2 grouping key: colliding
draws merge them into one hardlink group, distinct draws send both to pass
3 where they are renamed `n.0.pdf` / `n.1.pdf`. -/
theorem conflict_resolution_depends_on_draws :
    (check_for_conflicts_in_files st0 drawsConst [mcNoSize1, mcNoSize2]).map
        (fun p => p.1.map (fun f => f.name)) = some ["n.pdf"] ∧
    (check_for_conflicts_in_files st0 drawsIdx [mcNoSize1, mcNoSize2]).map
        (fun p => p.1.map (fun f => f.name)) = some ["n.0.pdf", "n.1.pdf"] ∧
    check_for_conflicts_in_files st0 drawsConst [mcNoSize1, mcNoSize2] ≠
      check_for_conflicts_in_files st0 drawsIdx [mcNoSize1, mcNoSize2] := by
  decide

/-- Inserting preserves membership (right to left). -/
theorem mem_insertLe {α : Type} (le : α → α → Bool) (a : α) :
    ∀ (l : List α) (x : α), x ∈ insertLe le a l → x = a ∨ x ∈ l := by
  intro l
  induction l with
  | nil => intro x hx; simp [insertLe] at hx; exact Or.inl hx
  | cons b bs ih =>
    intro x hx
    simp only [insertLe] at hx
    by_cases hle : le a b = true
    · rw [if_pos hle] at hx
      rcases List.mem_cons.mp hx with hx | hx
      · exact Or.inl hx
      · exact Or.inr hx
    · rw [if_neg hle] at hx
      rcases List.mem_cons.mp hx with hx | hx
      · exact Or.inr (by simp [hx])
      · rcases ih x hx with hx' | hx'
        · exact Or.inl hx'
        · exact Or.inr (List.mem_cons_of_mem _ hx')

/-- Sorting preserves membership (right to left). -/
theorem mem_isortBy {α : Type} (le : α → α → Bool) :
    ∀ (l : List α) (x : α), x ∈ isortBy le l → x ∈ l := by
  intro l
  induction l with
  | nil => intro x hx; simp [isortBy] at hx
  | cons a as ih =>
    intro x hx
    simp only [isortBy] at hx
    rcases mem_insertLe le a _ x hx with hx' | hx'
    · simp [hx']
    · exact List.mem_cons_of_mem _ (ih x hx')

/-- Every member of a pass's output list comes from one of its buckets. -/
theorem mem_processGroups (st : Settings) (le : MediaContainer → MediaContainer → Bool) :
    ∀ (gl : List (List MediaContainer)) (x : MediaContainer),
      x ∈ (processGroups st le gl).1 → x ∈ gl.flatten := by
  intro gl
  induction gl with
  | nil => intro x hx; simp [processGroups] at hx
  | cons g rest ih =>
    intro x hx
    rw [List.flatten_cons, List.mem_append]
    rcases g with _ | ⟨f, _ | ⟨f2, t⟩⟩
    · simp only [processGroups, isortBy] at hx
      exact Or.inr (ih x hx)
    · simp only [processGroups] at hx
      rcases List.mem_cons.mp hx with hx | hx
      · exact Or.inl (by simp [hx])
      · exact Or.inr (ih x hx)
    · rcases hs : isortBy le (f :: f2 :: t) with _ | ⟨base, tail⟩
      · simp only [processGroups, hs] at hx
        exact Or.inr (ih x hx)
      · simp only [processGroups, hs] at hx
        rcases List.mem_cons.mp hx with hx | hx
        · subst hx
          exact Or.inl (mem_isortBy le _ x (hs ▸ List.mem_cons_self _ _))
        · exact Or.inr (ih x hx)

/-- A member of a bucket after `groupPut` was already there or is the
inserted element. -/
theorem mem_groupPut {κ : Type} [DecidableEq κ] :
    ∀ (g : List (κ × List MediaContainer)) (k : κ) (f x : MediaContainer),
      x ∈ ((groupPut g k f).map Prod.snd).flatten →
        x ∈ (g.map Prod.snd).flatten ∨ x = f := by
  intro g
  induction g with
  | nil =>
    intro k f x hx
    simp [groupPut] at hx
    exact Or.inr hx
  | cons p rest ih =>
    intro k f x hx
    obtain ⟨k', fs⟩ := p
    by_cases hk : k' = k
    · simp only [groupPut, if_pos hk, List.map_cons, List.flatten_cons,
        List.mem_append, List.mem_singleton] at hx ⊢
      rcases hx with (hx | hx) | hx
      · exact Or.inl (Or.inl hx)
      · exact Or.inr hx
      · exact Or.inl (Or.inr hx)
    · simp only [groupPut, if_neg hk, List.map_cons, List.flatten_cons,
        List.mem_append] at hx ⊢
      rcases hx with hx | hx
      · exact Or.inl (Or.inl hx)
      · rcases ih k f x hx with hx' | hx'
        · exact Or.inl (Or.inr hx')
        · exact Or.inr hx'

/-- Folding `groupPut` only ever adds the keyed elements. -/
theorem mem_groupPut_foldl {κ : Type} [DecidableEq κ] :
    ∀ (keyed : List (κ × MediaContainer)) (g : List (κ × List MediaContainer))
      (x : MediaContainer),
      x ∈ (((keyed.foldl (fun g kf => groupPut g kf.1 kf.2) g)).map Prod.snd).flatten →
        x ∈ (g.map Prod.snd).flatten ∨ x ∈ keyed.map Prod.snd := by
  intro keyed
  induction keyed with
  | nil => intro g x hx; exact Or.inl hx
  | cons kf rest ih =>
    intro g x hx
    simp only [List.foldl_cons] at hx
    rcases ih (groupPut g kf.1 kf.2) x hx with hx' | hx'
    · rcases mem_groupPut g kf.1 kf.2 x hx' with h'' | h''
      · exact Or.inl h''
      · exact Or.inr (by simp [h''])
    · exact Or.inr (by simpa using Or.inr hx')

/-- Every member of every bucket is one of the keyed elements. -/
theorem mem_groupLists {κ : Type} [DecidableEq κ]
    (keyed : List (κ × MediaContainer)) (x : MediaContainer)
    (hx : x ∈ (groupLists keyed).flatten) : x ∈ keyed.map Prod.snd := by
  rcases mem_groupPut_foldl keyed [] x hx with h | h
  · simp at h
  · exact h

/-- The pass-2 keying touches only the keys, not the elements. -/
theorem passTwoKeys_map_snd (draws : Nat → String) :
    ∀ (fs : List MediaContainer) (k : Nat),
      (passTwoKeys draws fs k).1.map Prod.snd = fs := by
  intro fs
  induction fs with
  | nil => intro k; rfl
  | cons f fs ih => intro k; simp [passTwoKeys, ih]

/-- For a container whose size is known, `__str__` consumes no draw and
returns the decimal value. -/
theorem sizeStr_of_sized (draws : Nat → String) (k : Nat) (s : MCSize)
    (h : s.variant ≠ SizeVariant.noSize) : sizeStr draws k s = (optStr s.val, k) := by
  cases hv : s.variant
  · simp [sizeStr, hv]
  · simp [sizeStr, hv]
  · exact absurd hv h

/-- The pass-2 keys of an all-sized file list do not depend on the draw
oracle. -/
theorem passTwoKeys_sized (draws1 draws2 : Nat → String) :
    ∀ (fs : List MediaContainer), (∀ f ∈ fs, f.size.variant ≠ SizeVariant.noSize) →
      ∀ k, passTwoKeys draws1 fs k = passTwoKeys draws2 fs k := by
  intro fs
  induction fs with
  | nil => intro _ k; rfl
  | cons f fs ih =>
    intro h k
    have hf := h f (List.mem_cons_self _ _)
    have hr := ih (fun g hg => h g (List.mem_cons_of_mem _ hg))
    simp [passTwoKeys, sizeStr_of_sized draws1 k f.size hf,
      sizeStr_of_sized draws2 k f.size hf, hr k]

/-- The pass-3 size assertion over all-sized containers does not depend on
the draw oracle. -/
theorem assertDistinctSizes_sized (draws1 draws2 : Nat → String)
    (base : MediaContainer) (hb : base.size.variant ≠ SizeVariant.noSize) :
    ∀ (l : List MediaContainer), (∀ m ∈ l, m.size.variant ≠ SizeVariant.noSize) →
      ∀ k, assertDistinctSizes draws1 base l k = assertDistinctSizes draws2 base l k := by
  intro l
  induction l with
  | nil => intro _ k; rfl
  | cons it more ih =>
    intro h k
    have hit := h it (List.mem_cons_self _ _)
    have hr := ih (fun g hg => h g (List.mem_cons_of_mem _ hg))
    simp only [assertDistinctSizes, sizeStr_of_sized draws1 k it.size hit,
      sizeStr_of_sized draws2 k it.size hit,
      sizeStr_of_sized draws1 k base.size hb, sizeStr_of_sized draws2 k base.size hb]
    split
    · rfl
    · exact hr k

/-- Pass 3 over buckets of all-sized containers does not depend on the draw
oracle. -/
theorem passThree_sized (draws1 draws2 : Nat → String) :
    ∀ (gl : List (List MediaContainer)),
      (∀ m ∈ gl.flatten, m.size.variant ≠ SizeVariant.noSize) →
      ∀ k, passThree draws1 gl k = passThree draws2 gl k := by
  intro gl
  induction gl with
  | nil => intro _ k; rfl
  | cons g rest ih =>
    intro h k
    have hrest : ∀ m ∈ rest.flatten, m.size.variant ≠ SizeVariant.noSize := by
      intro m hm
      exact h m (by simp at hm ⊢; exact Or.inr hm)
    have hg : ∀ m ∈ g, m.size.variant ≠ SizeVariant.noSize := by
      intro m hm
      exact h m (by simp; exact Or.inl hm)
    rcases g with _ | ⟨f, _ | ⟨f2, t⟩⟩
    · simp only [passThree, isortBy]
      exact ih hrest k
    · simp only [passThree, ih hrest k]
    · rcases hs : isortBy leByUrl (f :: f2 :: t) with _ | ⟨base, tail⟩
      · simp only [passThree, hs]
        exact ih hrest k
      · have hmem : ∀ m ∈ base :: tail, m.size.variant ≠ SizeVariant.noSize := by
          intro m hm
          exact hg m (mem_isortBy leByUrl _ m (hs ▸ hm))
        have hbase : base.size.variant ≠ SizeVariant.noSize :=
          hmem base (List.mem_cons_self _ _)
        have htail : ∀ m ∈ tail, m.size.variant ≠ SizeVariant.noSize :=
          fun m hm => hmem m (List.mem_cons_of_mem _ hm)
        simp only [passThree, hs,
          assertDistinctSizes_sized draws1 draws2 base hbase tail htail k]
        split
        · rw [ih hrest _]
        · rfl

/-- C6 (amended): on an input set in which every resource's size is known
(no `no_size` variant, so `MediaContainerSize.__str__` never draws a random
string), conflict resolution is a function of the input set alone: two runs
with arbitrary draw oracles produce identical outputs — identical target
paths, identical base choices and identical hardlink groupings, all
tie-breaks decided by sorting. -/
theorem conflict_resolution_deterministic_of_sized (st : Settings)
    (draws1 draws2 : Nat → String) (original : List MediaContainer)
    (h : ∀ c ∈ original, c.size.variant ≠ SizeVariant.noSize) :
    check_for_conflicts_in_files st draws1 original =
      check_for_conflicts_in_files st draws2 original := by
  have h1 : ∀ f ∈ (conflictPass1 st original).1, f.size.variant ≠ SizeVariant.noSize := by
    intro f hf
    simp only [conflictPass1] at hf
    have hm := mem_groupLists _ f (mem_processGroups st (leByPath st) _ f hf)
    have hm' : f ∈ original.filter (fun it => it.mediaType != MediaType.corrupted) := by
      simpa using hm
    exact h f (List.mem_of_mem_filter hm')
  have h2 : conflictPass2 st draws1 (conflictPass1 st original).1 =
      conflictPass2 st draws2 (conflictPass1 st original).1 := by
    simp only [conflictPass2]
    rw [passTwoKeys_sized draws1 draws2 _ h1 0]
  have h4 : ∀ f ∈ (conflictPass2 st draws2 (conflictPass1 st original).1).1.1,
      f.size.variant ≠ SizeVariant.noSize := by
    intro f hf
    simp only [conflictPass2] at hf
    have hm := mem_groupLists _ f (mem_processGroups st leByUrl _ f hf)
    rw [passTwoKeys_map_snd] at hm
    exact h1 f hm
  have h3 : ∀ k, conflictPass3 st draws1
        (conflictPass2 st draws2 (conflictPass1 st original).1).1.1 k =
      conflictPass3 st draws2
        (conflictPass2 st draws2 (conflictPass1 st original).1).1.1 k := by
    intro k
    simp only [conflictPass3]
    apply passThree_sized
    intro m hm
    have hm' := mem_groupLists _ m hm
    have hm'' : m ∈ (conflictPass2 st draws2 (conflictPass1 st original).1).1.1 := by
      simpa using hm'
    exact h4 m hm''
  simp only [check_for_conflicts_in_files]
  rw [h2, h3]

/-- Witness for the amended C6: a concrete all-sized input, two different
oracles, equal outputs. -/
theorem conflict_resolution_deterministic_of_sized_witness :
    check_for_conflicts_in_files st0 drawsConst [mcDoc, mcVideo] =
      check_for_conflicts_in_files st0 drawsIdx [mcDoc, mcVideo] :=
  conflict_resolution_deterministic_of_sized st0 drawsConst drawsIdx [mcDoc, mcVideo]
    (by decide)

end Isisdl
